import Mathlib

/-!
Shallow embedding of the OPZ-Sample-Manager browser client
(src/static/js/configeditor.js, src/static/js/samplemanager.js,
src/unnamed/part_000), together with theorems settling the claims
about its specification.

Conventions of the embedding:
* JavaScript numbers that the code only ever uses as non-negative integers
  (KB counts, slot indices, retry counters) are modelled as `Nat`.
* JavaScript doubles are modelled as exact rationals; `toFixed(1)` is
  modelled as rounding the exact value half-up to one decimal place.
* Values that may be `null`/`undefined` are modelled as `Option`.
* DOM / network side effects are modelled as explicit traces (lists of
  actions emitted by a handler), with the outcome of each backend call
  supplied as a boolean parameter.
-/

/-! ## Storage metrics (configeditor.js lines 286-351, `updateStorageDisplay`)

`const percent = ((used / total) * 100).toFixed(1); const percentNum = parseFloat(percent);`
The percentage rounded to one decimal is held here as a count of tenths of a
percent: `percentTenths used total` is `(used / total) * 1000` rounded half-up,
so that `percentNum = percentTenths / 10`. -/
def percentTenths (used total : ℕ) : ℕ :=
  (2 * (used * 1000) + total) / (2 * total)

/-- The value of the `percent` variable in `updateStorageDisplay`, keeping the
IEEE-754 behaviour of `used / total` when `total = 0`: `x / 0` is `Infinity`
for `x > 0` and `NaN` for `x = 0`; the code has no guard for `total = 0`. -/
inductive JsPercent where
  | val (tenths : ℕ)
  | posInf
  | nan
deriving DecidableEq

/-- `((used / total) * 100).toFixed(1)` followed by `parseFloat`, as computed by
`updateStorageDisplay` (configeditor.js line 291-292; samplemanager.js line 9
computes the same expression). -/
def jsPercent (used total : ℕ) : JsPercent :=
  if total = 0 then (if used = 0 then JsPercent.nan else JsPercent.posInf)
  else JsPercent.val (percentTenths used total)

/-- Decimal rendering of a tenths count, e.g. `853 ↦ "85.3"`. -/
def tenthsString (t : ℕ) : String :=
  toString (t / 10) ++ "." ++ toString (t % 10)

/-- The string interpolated into the storage bar label and width
(`${percent}%`); `Number.prototype.toFixed` renders `Infinity` and `NaN`
as the strings `"Infinity"` and `"NaN"`. -/
def percentString : JsPercent → String
  | JsPercent.val t => tenthsString t
  | JsPercent.posInf => "Infinity"
  | JsPercent.nan => "NaN"

/-- The color-class chain of configeditor.js lines 329-334:
`let colorClass = 'storage-low'; if (percentNum >= 85) {high} else if (percentNum >= 60) {medium}`.
`Infinity >= 85` is true, so `posInf` classifies high; both `NaN >= 85` and
`NaN >= 60` are false, so `nan` keeps the initial low class. -/
def colorClass : JsPercent → String
  | JsPercent.val t =>
      if 850 ≤ t then "storage-high"
      else if 600 ≤ t then "storage-medium"
      else "storage-low"
  | JsPercent.posInf => "storage-high"
  | JsPercent.nan => "storage-low"

/-- `storageBarLabel.textContent = ` Storage: ${percent}% `` (line 344). -/
def storageBarLabel (used total : ℕ) : String :=
  "Storage: " ++ percentString (jsPercent used total) ++ "%"

/-! ## OP-Z slot occupancy (configeditor.js lines 433-499, `fetchOpzSamples`) -/

/-- One element of `data.sampleData[catIndex]`: the backend may omit any of
the fields. -/
structure OpzSlot where
  path : Option String
  filename : Option String
  filesize : Option ℕ
deriving DecidableEq

/-- The occupancy test of configeditor.js lines 494-496 (identical in
samplemanager.js lines 122-124):
`typeof slot.filename === "string" && slot.filename !== "(empty)" && !slot.filename.startsWith("~")`.
Note the test does not exclude the empty string: `typeof "" === "string"`. -/
def countsAsSample (slot : OpzSlot) : Bool :=
  match slot.filename with
  | none => false
  | some s => s ≠ "(empty)" && !(s.startsWith "~")

/-- Final value of the `opzNumSamples` counter after `fetchOpzSamples` walks
every category and slot, incrementing on the occupancy test (started at `0`
on line 421, incremented on line 495). -/
def opzNumSamples (sampleData : List (List OpzSlot)) : ℕ :=
  sampleData.foldl
    (fun n category =>
      category.foldl (fun m slot => if countsAsSample slot then m + 1 else m) n)
    0

/-- Helper: the inner counting fold is the number of slots passing the test. -/
theorem foldl_count_eq (category : List OpzSlot) (n : ℕ) :
    category.foldl (fun m slot => if countsAsSample slot then m + 1 else m) n
      = n + (category.filter countsAsSample).length := by
  induction category generalizing n with
  | nil => simp
  | cons slot rest ih =>
      by_cases h : countsAsSample slot
      · simp [List.foldl_cons, h, ih]
        omega
      · simp [List.foldl_cons, h, ih]

/-- Helper: the outer fold over categories shifts by its initial value. -/
theorem foldl_categories_shift (l : List (List OpzSlot)) : ∀ n : ℕ,
    List.foldl
      (fun n c => c.foldl (fun m slot => if countsAsSample slot then m + 1 else m) n) n l
      = n + List.foldl
        (fun n c => c.foldl (fun m slot => if countsAsSample slot then m + 1 else m) n) 0 l := by
  induction l with
  | nil => simp
  | cons c cs ih =>
      intro n
      simp only [List.foldl_cons]
      rw [ih, ih (List.foldl _ 0 c), foldl_count_eq, foldl_count_eq]
      omega

/-- Helper: the whole counter is the number of occupied slots of the snapshot. -/
theorem opzNumSamples_eq_length (sampleData : List (List OpzSlot)) :
    opzNumSamples sampleData
      = ((sampleData.flatMap id).filter countsAsSample).length := by
  unfold opzNumSamples
  induction sampleData with
  | nil => simp
  | cons category rest ih =>
      simp only [List.foldl_cons, List.flatMap_cons, List.filter_append,
        List.length_append, id]
      rw [foldl_categories_shift, foldl_count_eq, ih]
      omega

/-- C1 counterexample slot: the backend field `filename` holding the empty
string. -/
def emptyNameSlot : OpzSlot := { path := none, filename := some "", filesize := none }

/-- C1: the occupancy test counts a slot iff its filename is a NON-EMPTY
string distinct from "(empty)" not starting with "~" — refuted: the code
counts the empty-string filename (`typeof "" === "string"` holds and the
other two tests pass), so a snapshot whose only slot has `filename: ""` yields
counter 1. -/
theorem countsAsSample_empty_string_counterexample :
    ¬ (∀ slot : OpzSlot, countsAsSample slot = true
        ↔ ∃ s, slot.filename = some s ∧ s ≠ "" ∧ s ≠ "(empty)" ∧ s.startsWith "~" = false)
    ∧ opzNumSamples [[emptyNameSlot]] = 1 := by
  constructor
  · intro hall
    rcases (hall emptyNameSlot).mp (by decide) with ⟨s, hs, hne, -, -⟩
    cases hs
    exact hne rfl
  · decide

/-- C1 (amended): `opzNumSamples` counts exactly the slots whose `filename`
is a string different from "(empty)" and not starting with "~"; the empty
string is counted. -/
theorem opzNumSamples_occupancy (sampleData : List (List OpzSlot)) :
    opzNumSamples sampleData
      = ((sampleData.flatMap id).filter countsAsSample).length
    ∧ ∀ slot : OpzSlot, countsAsSample slot = true
        ↔ ∃ s, slot.filename = some s ∧ s ≠ "(empty)" ∧ s.startsWith "~" = false := by
  refine ⟨opzNumSamples_eq_length sampleData, ?_⟩
  intro slot
  cases hf : slot.filename with
  | none => simp [countsAsSample, hf]
  | some s =>
      simp only [countsAsSample, hf, Bool.and_eq_true, decide_eq_true_eq,
        Bool.not_eq_true']
      constructor
      · rintro ⟨hne, hpre⟩
        exact ⟨s, rfl, hne, hpre⟩
      · rintro ⟨s2, hs2, hne, hpre⟩
        cases hs2
        exact ⟨hne, hpre⟩
/-- Helper: `percentTenths` is the exact half-up rounding of
`(used / total) * 100` to one decimal place (expressed in tenths). -/
theorem percentTenths_eq_round (used total : ℕ) (h : 0 < total) :
    (percentTenths used total : ℤ) = round ((used : ℚ) * 1000 / total) := by
  have htz : (total : ℚ) ≠ 0 := Nat.cast_ne_zero.mpr h.ne'
  rw [round_eq]
  have harg : (used : ℚ) * 1000 / total + 1 / 2
      = (((2 * (used * 1000) + total : ℕ) : ℤ) : ℚ) / ((2 * total : ℕ) : ℚ) := by
    push_cast
    field_simp
    ring
  rw [harg, Rat.floor_intCast_div_natCast]
  unfold percentTenths
  exact Int.natCast_div _ _

/-- Helper: comparison of a tenths count against a whole-percent bound. -/
theorem tenths_le_iff (t b : ℕ) : ((b : ℚ) ≤ (t : ℚ) / 10 ↔ b * 10 ≤ t) := by
  rw [le_div_iff₀ (by norm_num : (0:ℚ) < 10)]
  constructor
  · intro hx
    exact_mod_cast hx
  · intro hx
    exact_mod_cast hx

/-- C2: with `total > 0`, the displayed percentage is the half-up rounding of
`(used / total) * 100` to one decimal, and the color class is
high iff percent ≥ 85, medium iff 60 ≤ percent < 85, low otherwise;
in particular percent = 60.0 gives medium and percent = 85.0 gives high. -/
theorem updateStorageDisplay_classification (used total : ℕ) (h : 0 < total) :
    (percentTenths used total : ℤ) = round ((used : ℚ) * 1000 / total)
    ∧ (colorClass (jsPercent used total) = "storage-high"
        ↔ 85 ≤ (percentTenths used total : ℚ) / 10)
    ∧ (colorClass (jsPercent used total) = "storage-medium"
        ↔ 60 ≤ (percentTenths used total : ℚ) / 10
          ∧ (percentTenths used total : ℚ) / 10 < 85)
    ∧ (colorClass (jsPercent used total) = "storage-low"
        ↔ (percentTenths used total : ℚ) / 10 < 60)
    ∧ ((percentTenths used total : ℚ) / 10 = 60
        → colorClass (jsPercent used total) = "storage-medium")
    ∧ ((percentTenths used total : ℚ) / 10 = 85
        → colorClass (jsPercent used total) = "storage-high") := by
  have hjs : jsPercent used total = JsPercent.val (percentTenths used total) := by
    simp [jsPercent, h.ne']
  set t := percentTenths used total with ht
  have h85 : (85 : ℚ) ≤ (t : ℚ) / 10 ↔ 850 ≤ t := by
    simpa using tenths_le_iff t 85
  have h60 : (60 : ℚ) ≤ (t : ℚ) / 10 ↔ 600 ≤ t := by
    simpa using tenths_le_iff t 60
  have hlt85 : (t : ℚ) / 10 < 85 ↔ t < 850 := by
    rw [← not_le, ← not_le, h85]
  have hlt60 : (t : ℚ) / 10 < 60 ↔ t < 600 := by
    rw [← not_le, ← not_le, h60]
  have heq60 : ((t : ℚ) / 10 = 60) ↔ t = 600 := by
    rw [div_eq_iff (by norm_num : (10:ℚ) ≠ 0)]
    norm_num
    exact ⟨fun hx => by exact_mod_cast hx, fun hx => by exact_mod_cast hx⟩
  have heq85 : ((t : ℚ) / 10 = 85) ↔ t = 850 := by
    rw [div_eq_iff (by norm_num : (10:ℚ) ≠ 0)]
    norm_num
    exact ⟨fun hx => by exact_mod_cast hx, fun hx => by exact_mod_cast hx⟩
  refine ⟨percentTenths_eq_round used total h, ?_, ?_, ?_, ?_, ?_⟩ <;>
    rw [hjs] <;> unfold colorClass <;>
    by_cases hb1 : 850 ≤ t <;> by_cases hb2 : 600 ≤ t <;>
    simp [hb1, hb2, h85, h60, hlt85, hlt60, heq60, heq85] <;> omega

/-- C2 witness at `(used, total) = (1700, 2000)` (a boundary case: 85.0%). -/
theorem updateStorageDisplay_classification_witness :
    0 < 2000
    ∧ ((percentTenths 1700 2000 : ℤ) = round (((1700 : ℕ) : ℚ) * 1000 / ((2000 : ℕ) : ℚ))
    ∧ (colorClass (jsPercent 1700 2000) = "storage-high"
        ↔ 85 ≤ (percentTenths 1700 2000 : ℚ) / 10)
    ∧ (colorClass (jsPercent 1700 2000) = "storage-medium"
        ↔ 60 ≤ (percentTenths 1700 2000 : ℚ) / 10
          ∧ (percentTenths 1700 2000 : ℚ) / 10 < 85)
    ∧ (colorClass (jsPercent 1700 2000) = "storage-low"
        ↔ (percentTenths 1700 2000 : ℚ) / 10 < 60)
    ∧ ((percentTenths 1700 2000 : ℚ) / 10 = 60
        → colorClass (jsPercent 1700 2000) = "storage-medium")
    ∧ ((percentTenths 1700 2000 : ℚ) / 10 = 85
        → colorClass (jsPercent 1700 2000) = "storage-high")) :=
  ⟨by decide, updateStorageDisplay_classification 1700 2000 (by decide)⟩

/-- C3 counterexample: `updateStorageDisplay` has no guard for `total = 0`;
at `used = 100, total = 0` the IEEE division gives `Infinity`, the label shows
"Infinity", not "0.0", and the class is high. -/
theorem updateStorageDisplay_total_zero_counterexample :
    percentString (jsPercent 100 0) = "Infinity"
    ∧ percentString (jsPercent 100 0) ≠ "0.0"
    ∧ colorClass (jsPercent 100 0) = "storage-high" := by
  decide

/-- C3 (amended): with `total = 0` the division is NOT guarded: for positive
`used` the percent is `Infinity` (class high), for `used = 0` it is `NaN`
(class low); the displayed percentage is never 0%. -/
theorem updateStorageDisplay_total_zero (used : ℕ) :
    (0 < used → jsPercent used 0 = JsPercent.posInf
      ∧ storageBarLabel used 0 = "Storage: Infinity%"
      ∧ colorClass (jsPercent used 0) = "storage-high")
    ∧ (used = 0 → jsPercent used 0 = JsPercent.nan
      ∧ storageBarLabel used 0 = "Storage: NaN%"
      ∧ colorClass (jsPercent used 0) = "storage-low") := by
  constructor
  · intro hu
    have hne : ¬ used = 0 := by omega
    refine ⟨by simp [jsPercent, hne], ?_, by simp [jsPercent, hne, colorClass]⟩
    simp only [storageBarLabel, jsPercent, if_pos rfl, if_neg hne, percentString]
    rfl
  · rintro rfl
    exact ⟨rfl, rfl, rfl⟩

/-- C3 witness at `used = 100` and `used = 0`. -/
theorem updateStorageDisplay_total_zero_witness :
    (0 < 100
      ∧ (jsPercent 100 0 = JsPercent.posInf
        ∧ storageBarLabel 100 0 = "Storage: Infinity%"
        ∧ colorClass (jsPercent 100 0) = "storage-high"))
    ∧ (jsPercent 0 0 = JsPercent.nan
        ∧ storageBarLabel 0 0 = "Storage: NaN%"
        ∧ colorClass (jsPercent 0 0) = "storage-low") :=
  ⟨⟨by decide, (updateStorageDisplay_total_zero 100).1 (by decide)⟩,
    (updateStorageDisplay_total_zero 0).2 rfl⟩

/-! ## OP-Z slot drag-and-drop (configeditor.js lines 457-490; identical in
samplemanager.js lines 81-117)

The anonymous `drop` listener attached to each slot. Its effects are modelled
as the list of actions it emits; `moveOk` is the outcome of the
`POST /move-sample` call (`response.ok` and no transport error). -/

/-- The payload stashed by `dragstart` (lines 440-446):
`{category, slot: slotIndex, path: slot.path}`; `path` is absent when the
source slot had none. -/
structure MovePayload where
  category : String
  slot : ℕ
  path : Option String
deriving DecidableEq

/-- Externally observable effects of the slot drop handler. -/
inductive OpzAction where
  | moveRequest (sourcePath targetCategory : String) (targetSlot : ℕ)
  | refresh
  | alertMsg (msg : String)
deriving DecidableEq

/-- The drop handler of configeditor.js lines 457-490, for the slot at
`(category, slotIndex)`. `filesCount` is `e.dataTransfer.files.length`
(native file drops bail out, line 461-463); `payload` is `none` when
`getData("text/plain")` returned the empty string (line 465-466).
On `!fromPath || (droppedData.category === category && droppedData.slot == slotIndex)`
the handler returns with no request (line 471). Otherwise it issues the
move request; on success it refreshes (line 485), on failure the `catch`
block only alerts (lines 486-489) — no refresh. -/
def slotDropActions (category : String) (slotIndex : ℕ) (filesCount : ℕ)
    (payload : Option MovePayload) (moveOk : Bool) : List OpzAction :=
  if 0 < filesCount then []
  else
    match payload with
    | none => []
    | some droppedData =>
      match droppedData.path with
      | none => []
      | some fromPath =>
        if fromPath = "" then []
        else if droppedData.category = category ∧ droppedData.slot = slotIndex then []
        else
          OpzAction.moveRequest fromPath category slotIndex ::
            (if moveOk then [OpzAction.refresh]
             else [OpzAction.alertMsg "Could not move sample."])

/-- C4 counterexample: for a failing move (`moveOk = false`) of a payload with
a different source slot, the request is issued but NO refresh is triggered —
refuting "refresh is triggered unconditionally regardless of success". -/
theorem slotDrop_failure_no_refresh_counterexample :
    OpzAction.moveRequest "/mnt/a.wav" "kick" 0
        ∈ slotDropActions "kick" 0 0 (some ⟨"drum", 1, some "/mnt/a.wav"⟩) false
    ∧ OpzAction.refresh
        ∉ slotDropActions "kick" 0 0 (some ⟨"drum", 1, some "/mnt/a.wav"⟩) false := by
  decide

/-- C4 (amended): for an internal move payload with a non-empty source path
and a source identity different from the target, the move request is issued;
the renderer refresh is triggered iff the move succeeded, and on failure an
alert is emitted instead. -/
theorem slotDrop_move_request (category : String) (slotIndex : ℕ)
    (droppedData : MovePayload) (fromPath : String) (moveOk : Bool)
    (hpath : droppedData.path = some fromPath) (hne : fromPath ≠ "")
    (hid : ¬ (droppedData.category = category ∧ droppedData.slot = slotIndex)) :
    slotDropActions category slotIndex 0 (some droppedData) moveOk
      = OpzAction.moveRequest fromPath category slotIndex ::
          (if moveOk then [OpzAction.refresh]
           else [OpzAction.alertMsg "Could not move sample."]) := by
  simp [slotDropActions, hpath, hne, hid]

/-- C4 witness: a failing and a succeeding move at concrete slots. -/
theorem slotDrop_move_request_witness :
    ((⟨"drum", 1, some "/mnt/a.wav"⟩ : MovePayload).path = some "/mnt/a.wav"
      ∧ "/mnt/a.wav" ≠ ""
      ∧ ¬ ((⟨"drum", 1, some "/mnt/a.wav"⟩ : MovePayload).category = "kick"
            ∧ (⟨"drum", 1, some "/mnt/a.wav"⟩ : MovePayload).slot = 0)
      ∧ slotDropActions "kick" 0 0 (some ⟨"drum", 1, some "/mnt/a.wav"⟩) false
          = OpzAction.moveRequest "/mnt/a.wav" "kick" 0 ::
              [OpzAction.alertMsg "Could not move sample."])
    ∧ slotDropActions "kick" 0 0 (some ⟨"drum", 1, some "/mnt/a.wav"⟩) true
        = OpzAction.moveRequest "/mnt/a.wav" "kick" 0 :: [OpzAction.refresh] :=
  ⟨⟨rfl, by decide, by decide,
      slotDrop_move_request "kick" 0 ⟨"drum", 1, some "/mnt/a.wav"⟩ "/mnt/a.wav" false
        rfl (by decide) (by decide)⟩,
    slotDrop_move_request "kick" 0 ⟨"drum", 1, some "/mnt/a.wav"⟩ "/mnt/a.wav" true
      rfl (by decide) (by decide)⟩

/-- C5: a drop whose payload has the same identity as the target slot (same
category and slot index), or whose source path is missing or empty, emits
nothing: no backend call, no refresh. -/
theorem slotDrop_same_identity_noop (category : String) (slotIndex : ℕ)
    (droppedData : MovePayload) (moveOk : Bool)
    (hid : (droppedData.category = category ∧ droppedData.slot = slotIndex)
      ∨ droppedData.path = none ∨ droppedData.path = some "") :
    slotDropActions category slotIndex 0 (some droppedData) moveOk = [] := by
  rcases hid with hid | hnone | hempty
  · rcases hp : droppedData.path with - | fromPath
    · simp [slotDropActions, hp]
    · simp [slotDropActions, hp, hid]
  · simp [slotDropActions, hnone]
  · simp [slotDropActions, hempty]

/-- C5 witness: same-identity drop and missing-path drop at concrete slots. -/
theorem slotDrop_same_identity_noop_witness :
    (((⟨"kick", 2, some "/mnt/a.wav"⟩ : MovePayload).category = "kick"
        ∧ (⟨"kick", 2, some "/mnt/a.wav"⟩ : MovePayload).slot = 2)
      ∧ slotDropActions "kick" 2 0 (some ⟨"kick", 2, some "/mnt/a.wav"⟩) true = [])
    ∧ slotDropActions "kick" 2 0 (some ⟨"snare", 0, none⟩) true = [] :=
  ⟨⟨⟨rfl, rfl⟩,
      slotDrop_same_identity_noop "kick" 2 ⟨"kick", 2, some "/mnt/a.wav"⟩ true
        (Or.inl ⟨rfl, rfl⟩)⟩,
    slotDrop_same_identity_noop "kick" 2 ⟨"snare", 0, none⟩ true (Or.inr (Or.inl rfl))⟩

/-! ## Sample deletion (configeditor.js lines 353-383, `deleteSample`) -/

/-- Externally observable effects of `deleteSample`. -/
inductive DeleteAction where
  | confirmPrompt (msg : String)
  | deleteRequest (path device : String)
  | refreshCall
  | alertMsg (msg : String)
deriving DecidableEq

/-- The confirmation message of line 360-361:
`const filename = path.split('/').pop(); confirm(` Delete "${filename}"? `)`. -/
def deleteConfirmMsg (path : String) : String :=
  "Delete \"" ++ (path.splitOn "/").getLastD "" ++ "\"?"

/-- `deleteSample(device, path, refreshCallback)` (configeditor.js lines
359-383) as an action trace. `userConfirms` is the result of `confirm`;
`deleteOk` is `response.ok` of the `DELETE /delete-sample` call;
`hasCallback` is whether a `refreshCallback` was supplied. The `catch`
block alerts with the error message and performs no refresh. -/
def deleteSample (device path : String)
    (userConfirms deleteOk hasCallback : Bool) (errMsg : String) : List DeleteAction :=
  DeleteAction.confirmPrompt (deleteConfirmMsg path) ::
    if !userConfirms then []
    else
      DeleteAction.deleteRequest path device ::
        if deleteOk then (if hasCallback then [DeleteAction.refreshCall] else [])
        else [DeleteAction.alertMsg ("Failed to delete file: " ++ errMsg)]

/-- C8: deletion always prompts for confirmation first; cancelling emits
nothing beyond the prompt (no backend call, no DOM change); a confirmed,
successful delete fires the request and then the supplied refresh callback;
a confirmed, failing delete alerts and performs no refresh. -/
theorem deleteSample_confirmation (device path errMsg : String) :
    (∀ userConfirms deleteOk hasCallback : Bool,
      (deleteSample device path userConfirms deleteOk hasCallback errMsg).head?
        = some (DeleteAction.confirmPrompt (deleteConfirmMsg path)))
    ∧ (∀ deleteOk hasCallback : Bool,
      deleteSample device path false deleteOk hasCallback errMsg
        = [DeleteAction.confirmPrompt (deleteConfirmMsg path)])
    ∧ deleteSample device path true true true errMsg
        = [DeleteAction.confirmPrompt (deleteConfirmMsg path),
           DeleteAction.deleteRequest path device,
           DeleteAction.refreshCall]
    ∧ (∀ hasCallback : Bool,
      deleteSample device path true false hasCallback errMsg
        = [DeleteAction.confirmPrompt (deleteConfirmMsg path),
           DeleteAction.deleteRequest path device,
           DeleteAction.alertMsg ("Failed to delete file: " ++ errMsg)]) := by
  refine ⟨fun uc dOk hc => rfl, fun dOk hc => rfl, rfl, fun hc => rfl⟩

/-! ## Mount-path polling (configeditor.js lines 168-186, `pollForMount`;
identical in samplemanager.js lines 220-237 up to the render call) -/

/-- Externally observable events of one polling run. -/
inductive PollEvent where
  | configQuery (attempt : ℕ)
  | fullRender
  | sleep (ms : ℕ)
  | warnNotFound
deriving DecidableEq

/-- The loop body of `pollForMount`: attempt `i` queries
`/get-config-setting?config_option=OPZ_MOUNT_PATH`; a truthy (non-empty)
`config_value` triggers one full render (`loadAllConfigs` /
`fetchOpzSamples`) and returns; otherwise the loop sleeps `delay` ms and
continues; an exhausted loop logs a warning. -/
def pollSteps (configValue : ℕ → String) (delay : ℕ) (i : ℕ) : ℕ → List PollEvent
  | 0 => [PollEvent.warnNotFound]
  | fuel + 1 =>
    PollEvent.configQuery i ::
      if configValue i ≠ "" then [PollEvent.fullRender]
      else PollEvent.sleep delay :: pollSteps configValue delay (i + 1) fuel

/-- `pollForMount(retries = 60, delay = 2000)` as an event trace, where
`configValue i` is the `config_value` string returned by the backend on
attempt `i` (the empty string is the falsy case). -/
def pollForMount (configValue : ℕ → String)
    (retries : ℕ := 60) (delay : ℕ := 2000) : List PollEvent :=
  pollSteps configValue delay 0 retries

/-- Helper: a run whose every answer is empty renders nothing and ends in
the warning. -/
theorem pollSteps_all_empty (configValue : ℕ → String) (delay : ℕ)
    (hempty : ∀ j, configValue j = "") : ∀ fuel i,
    (pollSteps configValue delay i fuel).count PollEvent.fullRender = 0
    ∧ PollEvent.warnNotFound ∈ pollSteps configValue delay i fuel := by
  intro fuel
  induction fuel with
  | zero => intro i; simp [pollSteps]
  | succ n ih =>
      intro i
      have h := hempty i
      simp only [pollSteps, h, ne_eq, not_true_eq_false, if_false]
      refine ⟨?_, ?_⟩
      · simp [List.count_cons, (ih (i + 1)).1]
      · simp [(ih (i + 1)).2]

/-- C9: an answer sequence that is empty on attempts 0-2 and non-empty on
attempt 3 yields the trace query-sleep ×3, then the 4th query followed by
exactly one full render and nothing else (polling stops); an answer sequence
that is always empty yields no render at all and a logged warning. -/
theorem pollForMount_render_once (configValue : ℕ → String) :
    (configValue 0 = "" → configValue 1 = "" → configValue 2 = "" →
      configValue 3 ≠ "" →
      pollForMount configValue
        = [PollEvent.configQuery 0, PollEvent.sleep 2000,
           PollEvent.configQuery 1, PollEvent.sleep 2000,
           PollEvent.configQuery 2, PollEvent.sleep 2000,
           PollEvent.configQuery 3, PollEvent.fullRender])
    ∧ ((∀ j, configValue j = "") →
      (pollForMount configValue).count PollEvent.fullRender = 0
      ∧ PollEvent.warnNotFound ∈ pollForMount configValue) := by
  constructor
  · intro h0 h1 h2 h3
    show pollSteps configValue 2000 0 60 = _
    rw [show (60 : ℕ) = 56 + 1 + 1 + 1 + 1 from rfl]
    simp [pollSteps, h0, h1, h2, h3]
  · intro hempty
    exact pollSteps_all_empty configValue 2000 hempty 60 0

/-- C9 witness: the mount path appears on the 4th attempt; and a never-
mounted device only warns. -/
theorem pollForMount_render_once_witness :
    ((fun j => if j < 3 then "" else "/mnt/opz") 0 = ""
      ∧ (fun j => if j < 3 then "" else "/mnt/opz") 3 ≠ ""
      ∧ pollForMount (fun j => if j < 3 then "" else "/mnt/opz")
        = [PollEvent.configQuery 0, PollEvent.sleep 2000,
           PollEvent.configQuery 1, PollEvent.sleep 2000,
           PollEvent.configQuery 2, PollEvent.sleep 2000,
           PollEvent.configQuery 3, PollEvent.fullRender])
    ∧ (pollForMount (fun _ => "")).count PollEvent.fullRender = 0
    ∧ PollEvent.warnNotFound ∈ pollForMount (fun _ => "") :=
  ⟨⟨rfl, by decide,
      (pollForMount_render_once (fun j => if j < 3 then "" else "/mnt/opz")).1
        rfl rfl rfl (by decide)⟩,
    (pollForMount_render_once (fun _ => "")).2 (fun j => rfl)⟩

/-! ## Folder drop enumeration (configeditor.js lines 789-804,
`getFilesFromDirectory`, used by `setupOp1SectionDropZone` lines 737-786) -/

/-- A file-system entry as surfaced by `webkitGetAsEntry`. -/
inductive FsEntry where
  | fileE (name : String)
  | dirE (name : String) (children : List FsEntry)

/-- `getFilesFromDirectory(directoryEntry)`: it calls
`directoryEntry.createReader().readEntries(...)` ONCE and keeps only the
entries with `entry.isFile`; entries with `entry.isDirectory` are skipped and
never recursed into. Called on a non-directory it reads no entries. -/
def getFilesFromDirectory : FsEntry → List String
  | FsEntry.fileE _ => []
  | FsEntry.dirE _ children =>
      children.filterMap fun e =>
        match e with
        | FsEntry.fileE n => some n
        | FsEntry.dirE _ _ => none

mutual

/-- Modelled from the spec for comparison with `getFilesFromDirectory`
(claim C7 speaks of "every file contained in the dropped directory at any
nesting depth"): the recursive enumeration of all files below an entry. -/
def allFiles : FsEntry → List String
  | FsEntry.fileE n => [n]
  | FsEntry.dirE _ children => allFilesList children

/-- Recursive enumeration over a list of entries (spec-side helper). -/
def allFilesList : List FsEntry → List String
  | [] => []
  | e :: rest => allFiles e ++ allFilesList rest

end

/-- C7 counterexample: a dropped directory holding one nested subdirectory
with one file. The file is below the directory (at depth 2) but
`getFilesFromDirectory` returns the empty list, so the file is not part of
the bulk upload — refuting "every file at any nesting depth is enumerated". -/
theorem getFilesFromDirectory_nested_counterexample :
    "kick.wav" ∈ allFiles (FsEntry.dirE "pack" [FsEntry.dirE "inner" [FsEntry.fileE "kick.wav"]])
    ∧ getFilesFromDirectory
        (FsEntry.dirE "pack" [FsEntry.dirE "inner" [FsEntry.fileE "kick.wav"]]) = [] := by
  refine ⟨?_, rfl⟩
  simp [allFiles, allFilesList]

/-- C7 (amended): `getFilesFromDirectory` enumerates exactly the files that
are immediate children of the dropped directory; nested subdirectories and
everything below them are ignored. -/
theorem getFilesFromDirectory_top_level (name : String) (children : List FsEntry)
    (f : String) :
    f ∈ getFilesFromDirectory (FsEntry.dirE name children)
      ↔ FsEntry.fileE f ∈ children := by
  simp only [getFilesFromDirectory, List.mem_filterMap]
  constructor
  · rintro ⟨e, he, hsome⟩
    cases e with
    | fileE n =>
        simp only [Option.some.injEq] at hsome
        cases hsome
        exact he
    | dirE n cs => cases hsome
  · intro hmem
    exact ⟨FsEntry.fileE f, hmem, rfl⟩

/-! ## HTML escaping (configeditor.js lines 884-888, `escapeHtml`) and the
subdirectory header markup (lines 609-621 of `renderOp1Section`)

`escapeHtml` sets `div.textContent = text` and reads back `div.innerHTML`:
the HTML fragment serialization of a text node, which replaces `&` by
`&amp;`, `<` by `&lt;` and `>` by `&gt;` character by character (browsers
additionally serialize U+00A0 as `&nbsp;`; that character plays no role in
the markup-injection property at issue and is left out of the model). -/

/-- Per-character serialization step of `escapeHtml`. -/
def escapeCharList (c : Char) : List Char :=
  if c = '&' then "&amp;".data
  else if c = '<' then "&lt;".data
  else if c = '>' then "&gt;".data
  else [c]

/-- `escapeHtml(text)` (configeditor.js lines 884-888). -/
def escapeHtml (text : String) : String :=
  ⟨text.data.flatMap escapeCharList⟩

/-- The header markup built for one subdirectory (configeditor.js lines
609-621, `header.innerHTML = ...`, whitespace between tags elided).
The displayed name span interpolates `${escapeHtml(subdirName)}`, but in the
non-read-only branch the `onclick` attributes of the Rename and Delete
buttons interpolate `'${parentFolder}/${subdirName}'` with the RAW
subdirectory name. -/
def subdirHeaderHtml (parentFolder subdirName countText : String)
    (isReadOnly : Bool) : String :=
  "<span class=\"expand-icon\">▶</span>" ++
  "<span class=\"subdirectory-name\">" ++ escapeHtml subdirName ++ "</span>" ++
  "<span class=\"sample-count\">" ++ countText ++ "</span>" ++
  (if isReadOnly then "<span class=\"read-only-badge\">Read-only</span>"
   else
     "<div class=\"subdirectory-actions\">" ++
     "<button class=\"btn btn-small btn-secondary\" onclick=\"event.stopPropagation(); renameOp1Subdirectory('" ++
       parentFolder ++ "/" ++ subdirName ++ "')\">Rename</button>" ++
     "<button class=\"btn btn-small btn-danger\" onclick=\"event.stopPropagation(); deleteOp1Subdirectory('" ++
       parentFolder ++ "/" ++ subdirName ++ "')\">Delete</button>" ++
     "</div>")

/-- Modelled from the spec for comparison with `subdirHeaderHtml` (claim C10
says every subdirectory name is passed through `escapeHtml` before being
embedded in generated markup): the same markup with every interpolation of
the name escaped. -/
def subdirHeaderHtmlAllEscaped (parentFolder subdirName countText : String)
    (isReadOnly : Bool) : String :=
  subdirHeaderHtml parentFolder (escapeHtml subdirName) countText isReadOnly

/-- Spec-side helper: whether `pat` occurs as a contiguous substring. -/
def containsSub (pat : List Char) : List Char → Bool
  | [] => pat.isPrefixOf ([] : List Char)
  | c :: rest => pat.isPrefixOf (c :: rest) || containsSub pat rest

set_option maxRecDepth 40000 in
/-- C10 counterexample: for the subdirectory name `<script>` the generated
header embeds the raw name in the `onclick` attributes: the markup differs
from the fully-escaped variant and still contains the substring `<script>`,
although `escapeHtml` maps the name to `&lt;script&gt;`. -/
theorem subdirHeaderHtml_raw_name_counterexample :
    escapeHtml "<script>" = "&lt;script&gt;"
    ∧ subdirHeaderHtml "drum" "<script>" "(0 files)" false
        ≠ subdirHeaderHtmlAllEscaped "drum" "<script>" "(0 files)" false
    ∧ containsSub "<script>".data
        (subdirHeaderHtml "drum" "<script>" "(0 files)" false).data = true
    ∧ containsSub "<script>".data
        (subdirHeaderHtmlAllEscaped "drum" "<script>" "(0 files)" false).data = false := by
  refine ⟨rfl, ?_, ?_, ?_⟩ <;> decide

/-- Helper: a character emitted by `escapeCharList` is never a raw `<` or `>`. -/
theorem escapeCharList_no_angle (a c : Char) (hc : c ∈ escapeCharList a) :
    c ≠ '<' ∧ c ≠ '>' := by
  unfold escapeCharList at hc
  split_ifs at hc with h1 h2 h3
  · rw [show ("&amp;".data : List Char) = ['&', 'a', 'm', 'p', ';'] from rfl] at hc
    simp only [List.mem_cons, List.not_mem_nil, or_false] at hc
    rcases hc with rfl | rfl | rfl | rfl | rfl <;> exact ⟨by decide, by decide⟩
  · rw [show ("&lt;".data : List Char) = ['&', 'l', 't', ';'] from rfl] at hc
    simp only [List.mem_cons, List.not_mem_nil, or_false] at hc
    rcases hc with rfl | rfl | rfl | rfl <;> exact ⟨by decide, by decide⟩
  · rw [show ("&gt;".data : List Char) = ['&', 'g', 't', ';'] from rfl] at hc
    simp only [List.mem_cons, List.not_mem_nil, or_false] at hc
    rcases hc with rfl | rfl | rfl | rfl <;> exact ⟨by decide, by decide⟩
  · simp only [List.mem_singleton] at hc
    subst hc
    exact ⟨h2, h3⟩

/-- Helper: escaping is the identity on a character list without `&`, `<`, `>`. -/
theorem flatMap_escapeCharList_id (l : List Char)
    (h : ∀ c ∈ l, c ≠ '&' ∧ c ≠ '<' ∧ c ≠ '>') :
    l.flatMap escapeCharList = l := by
  induction l with
  | nil => rfl
  | cons c rest ih =>
      rcases h c (by simp) with ⟨h1, h2, h3⟩
      simp only [List.flatMap_cons, escapeCharList, if_neg h1, if_neg h2, if_neg h3]
      rw [ih (fun x hx => h x (by simp [hx]))]
      rfl

/-- C10 (amended): `escapeHtml` leaves a name without `&`, `<`, `>`
unchanged and its output never contains a raw `<` or `>`; the rendered
header is the fully-escaped markup only when escaping the name is a no-op —
for any other name the raw name reaches the `onclick` attributes (see the
counterexample). -/
theorem escapeHtml_markup (subdirName : String) :
    ((∀ c ∈ subdirName.data, c ≠ '&' ∧ c ≠ '<' ∧ c ≠ '>')
      → escapeHtml subdirName = subdirName)
    ∧ (∀ c ∈ (escapeHtml subdirName).data, c ≠ '<' ∧ c ≠ '>')
    ∧ (∀ parentFolder countText : String, ∀ isReadOnly : Bool,
        escapeHtml subdirName = subdirName →
        subdirHeaderHtml parentFolder subdirName countText isReadOnly
          = subdirHeaderHtmlAllEscaped parentFolder subdirName countText isReadOnly) := by
  refine ⟨?_, ?_, ?_⟩
  · intro h
    show String.mk (subdirName.data.flatMap escapeCharList) = subdirName
    rw [flatMap_escapeCharList_id subdirName.data h]
  · intro c hc
    simp only [escapeHtml, List.mem_flatMap] at hc
    rcases hc with ⟨a, -, hmem⟩
    exact escapeCharList_no_angle a c hmem
  · intro parentFolder countText isReadOnly h
    rw [subdirHeaderHtmlAllEscaped, h]

/-- C10 witness: the benign name "bass" round-trips and yields fully-escaped
markup. -/
theorem escapeHtml_markup_witness :
    (∀ c ∈ ("bass" : String).data, c ≠ '&' ∧ c ≠ '<' ∧ c ≠ '>')
    ∧ escapeHtml "bass" = "bass"
    ∧ subdirHeaderHtml "drum" "bass" "(0 files)" false
        = subdirHeaderHtmlAllEscaped "drum" "bass" "(0 files)" false :=
  ⟨by decide, (escapeHtml_markup "bass").1 (by decide),
    (escapeHtml_markup "bass").2.2 "drum" "(0 files)" false
      ((escapeHtml_markup "bass").1 (by decide))⟩

/-! ## OP-1 subdirectory ordering (configeditor.js lines 565-583,
`renderOp1Section`) -/

/-- `a.localeCompare(b)` for the plain folder names at issue: lexicographic
comparison by code point (negative / zero / positive). -/
def localeCompare (a b : String) : Int :=
  if a < b then -1 else if a = b then 0 else 1

/-- The comparator of configeditor.js lines 571-576:
`if (a === 'user') return 1; if (b === 'user') return -1; return a.localeCompare(b);`. -/
def subdirCompare (a b : String) : Int :=
  if a = "user" then 1
  else if b = "user" then -1
  else localeCompare a b

/-- `Object.keys(subdirectories).sort(comparator)` as a Boolean
"sorts not after" relation for merge sort. The keys of a JS object are
pairwise distinct, so the comparator is never consulted on two equal names;
the `a = b` disjunct makes the relation reflexive (hence total) without
changing it on any pair the source can actually compare. -/
def subdirLE (a b : String) : Bool :=
  decide (a = b) || decide (subdirCompare a b ≤ 0)

/-- The order in which `renderOp1Section` renders the subdirectories
(`sortedSubdirs`, line 571, consumed in source order by the `forEach` on
line 583). -/
def sortedSubdirs (names : List String) : List String :=
  names.mergeSort subdirLE

/-- Helper: characterization of the sort relation. -/
theorem subdirLE_iff (a b : String) :
    subdirLE a b = true ↔ a = b ∨ (a ≠ "user" ∧ (b = "user" ∨ a < b)) := by
  unfold subdirLE subdirCompare localeCompare
  by_cases hab : a = b
  · simp [hab]
  · by_cases ha : a = "user"
    · simp [hab, ha]
    · by_cases hb : b = "user"
      · simp [hab, ha, hb]
      · by_cases hlt : a < b
        · simp [hab, ha, hb, hlt]
        · simp [hab, ha, hb, hlt]

/-- Helper: the sort relation is total. -/
theorem subdirLE_total (a b : String) : (subdirLE a b || subdirLE b a) = true := by
  rw [Bool.or_eq_true, subdirLE_iff, subdirLE_iff]
  by_cases hab : a = b
  · exact Or.inl (Or.inl hab)
  · by_cases ha : a = "user"
    · refine Or.inr (Or.inr ⟨?_, Or.inl ha⟩)
      intro hb
      exact hab (ha.trans hb.symm)
    · by_cases hb : b = "user"
      · exact Or.inl (Or.inr ⟨ha, Or.inl hb⟩)
      · rcases lt_trichotomy a b with h | h | h
        · exact Or.inl (Or.inr ⟨ha, Or.inr h⟩)
        · exact absurd h hab
        · exact Or.inr (Or.inr ⟨hb, Or.inr h⟩)

/-- Helper: the sort relation is transitive. -/
theorem subdirLE_trans (a b c : String)
    (h1 : subdirLE a b = true) (h2 : subdirLE b c = true) : subdirLE a c = true := by
  rw [subdirLE_iff] at h1 h2 ⊢
  rcases h1 with rfl | ⟨hna, h1⟩
  · exact h2
  · rcases h2 with rfl | ⟨hnb, h2⟩
    · exact Or.inr ⟨hna, h1⟩
    · rcases h1 with hbu | hab
      · exact absurd hbu hnb
      · rcases h2 with hcu | hbc
        · exact Or.inr ⟨hna, Or.inl hcu⟩
        · exact Or.inr ⟨hna, Or.inr (lt_trans hab hbc)⟩

/-- Helper: the sort relation is antisymmetric. -/
theorem subdirLE_antisymm (a b : String)
    (h1 : subdirLE a b = true) (h2 : subdirLE b a = true) : a = b := by
  rw [subdirLE_iff] at h1 h2
  rcases h1 with rfl | ⟨hna, h1⟩
  · rfl
  · rcases h2 with rfl | ⟨hnb, h2⟩
    · rfl
    · rcases h1 with hbu | hab
      · exact absurd hbu hnb
      · rcases h2 with hau | hba
        · exact absurd hau hna
        · exact absurd (lt_trans hab hba) (lt_irrefl a)

/-- Helper: in a pairwise-related list, an element related below no other
element is the last one. -/
theorem getLast?_eq_of_pairwise_top {α : Type} {R : α → α → Prop} :
    ∀ {l : List α} {a : α}, l.Pairwise R → a ∈ l → (∀ y, R a y → y = a) →
      l.getLast? = some a := by
  intro l
  induction l with
  | nil =>
      intro a _ ha _
      cases ha
  | cons b t ih =>
      intro a hp ha htop
      cases t with
      | nil =>
          rcases List.mem_singleton.mp ha with rfl
          rfl
      | cons c t2 =>
          rw [List.getLast?_cons_cons]
          rcases List.mem_cons.mp ha with rfl | hmem
          · have hRc : R a c := (List.pairwise_cons.mp hp).1 c (by simp)
            have hca : c = a := htop c hRc
            exact ih hp.tail (List.mem_cons.mpr (Or.inl hca.symm)) htop
          · exact ih hp.tail hmem htop

/-- C6: `renderOp1Section` renders the subdirectory names so that "user" is
always last, the remaining names appear in strictly increasing lexicographic
order, and for any key set containing "user", "zeta" and "alpha" those three
appear in the order alpha, zeta, user. -/
theorem renderOp1Section_subdir_order (names : List String)
    (hnd : names.Nodup)
    (hu : "user" ∈ names) (hz : "zeta" ∈ names) (ha : "alpha" ∈ names) :
    (sortedSubdirs names).getLast? = some "user"
    ∧ (sortedSubdirs names).filter
        (fun s => s == "alpha" || s == "zeta" || s == "user")
        = ["alpha", "zeta", "user"]
    ∧ List.Pairwise (fun a b : String => a < b)
        ((sortedSubdirs names).filter (fun s => s != "user")) := by
  have hperm : (sortedSubdirs names).Perm names := List.mergeSort_perm names subdirLE
  have hpw : List.Pairwise (fun a b => subdirLE a b = true) (sortedSubdirs names) :=
    List.sorted_mergeSort subdirLE_trans subdirLE_total names
  refine ⟨?_, ?_, ?_⟩
  · refine getLast?_eq_of_pairwise_top hpw (hperm.mem_iff.mpr hu) ?_
    intro y hy
    rcases (subdirLE_iff "user" y).mp hy with h | ⟨hna, -⟩
    · exact h.symm
    · exact absurd rfl hna
  · have h1 : ((sortedSubdirs names).filter
        (fun s => s == "alpha" || s == "zeta" || s == "user")).Perm
          (names.filter (fun s => s == "alpha" || s == "zeta" || s == "user")) :=
      hperm.filter _
    have h2 : (names.filter
        (fun s => s == "alpha" || s == "zeta" || s == "user")).Perm
          ["alpha", "zeta", "user"] := by
      rw [List.perm_iff_count]
      intro x
      by_cases hx1 : x = "alpha"
      · subst hx1
        rw [List.count_filter (by decide)]
        rw [List.count_eq_one_of_mem hnd ha]
        decide
      · by_cases hx2 : x = "zeta"
        · subst hx2
          rw [List.count_filter (by decide)]
          rw [List.count_eq_one_of_mem hnd hz]
          decide
        · by_cases hx3 : x = "user"
          · subst hx3
            rw [List.count_filter (by decide)]
            rw [List.count_eq_one_of_mem hnd hu]
            decide
          · have hnotmem : x ∉ names.filter
                (fun s => s == "alpha" || s == "zeta" || s == "user") := by
              intro hx
              rcases List.mem_filter.mp hx with ⟨-, hpx⟩
              simp only [Bool.or_eq_true, beq_iff_eq] at hpx
              rcases hpx with (h | h) | h
              · exact hx1 h
              · exact hx2 h
              · exact hx3 h
            rw [List.count_eq_zero.mpr hnotmem]
            have hnotmem2 : x ∉ (["alpha", "zeta", "user"] : List String) := by
              intro hx
              rcases List.mem_cons.mp hx with h | hx
              · exact hx1 h
              · rcases List.mem_cons.mp hx with h | hx
                · exact hx2 h
                · rcases List.mem_singleton.mp hx with h
                  exact hx3 h
            rw [List.count_eq_zero.mpr hnotmem2]
    have hs1 : List.Pairwise (fun a b => subdirLE a b = true)
        ((sortedSubdirs names).filter
          (fun s => s == "alpha" || s == "zeta" || s == "user")) :=
      hpw.filter _
    have hlt_az : ("alpha" : String) < "zeta" := by
      rw [String.lt_iff_toList_lt]
      decide
    have hs2 : List.Pairwise (fun a b => subdirLE a b = true)
        (["alpha", "zeta", "user"] : List String) := by
      refine List.pairwise_cons.mpr ⟨?_, List.pairwise_cons.mpr ⟨?_, ?_⟩⟩
      · intro y hy
        rcases List.mem_cons.mp hy with rfl | hy
        · exact (subdirLE_iff _ _).mpr (Or.inr ⟨by decide, Or.inr hlt_az⟩)
        · rcases List.mem_singleton.mp hy with rfl
          exact (subdirLE_iff _ _).mpr (Or.inr ⟨by decide, Or.inl rfl⟩)
      · intro y hy
        rcases List.mem_singleton.mp hy with rfl
        exact (subdirLE_iff _ _).mpr (Or.inr ⟨by decide, Or.inl rfl⟩)
      · exact List.pairwise_singleton _ _
    haveI : IsAntisymm String (fun a b => subdirLE a b = true) := ⟨subdirLE_antisymm⟩
    exact List.eq_of_perm_of_sorted (h1.trans h2) hs1 hs2
  · have hndS : (sortedSubdirs names).Nodup := hperm.nodup_iff.mpr hnd
    have hcomb : List.Pairwise
        (fun a b : String => a ≠ b ∧ subdirLE a b = true) (sortedSubdirs names) :=
      List.Pairwise.and hndS hpw
    refine List.Pairwise.imp_of_mem ?_ (hcomb.filter (fun s => s != "user"))
    intro a b hamem hbmem hab
    rcases hab with ⟨hne, hle⟩
    have hbu : b ≠ "user" := by
      have := (List.mem_filter.mp hbmem).2
      simpa using this
    rcases (subdirLE_iff a b).mp hle with h | ⟨hna, h⟩
    · exact absurd h hne
    · rcases h with h | h
      · exact absurd h hbu
      · exact h

/-- C6 witness: the key set `{"zeta", "user", "alpha", "bass"}`. -/
theorem renderOp1Section_subdir_order_witness :
    (["zeta", "user", "alpha", "bass"] : List String).Nodup
    ∧ "user" ∈ (["zeta", "user", "alpha", "bass"] : List String)
    ∧ "zeta" ∈ (["zeta", "user", "alpha", "bass"] : List String)
    ∧ "alpha" ∈ (["zeta", "user", "alpha", "bass"] : List String)
    ∧ ((sortedSubdirs ["zeta", "user", "alpha", "bass"]).getLast? = some "user"
      ∧ (sortedSubdirs ["zeta", "user", "alpha", "bass"]).filter
          (fun s => s == "alpha" || s == "zeta" || s == "user")
          = ["alpha", "zeta", "user"]
      ∧ List.Pairwise (fun a b : String => a < b)
          ((sortedSubdirs ["zeta", "user", "alpha", "bass"]).filter
            (fun s => s != "user"))) :=
  ⟨by decide, by decide, by decide, by decide,
    renderOp1Section_subdir_order ["zeta", "user", "alpha", "bass"]
      (by decide) (by decide) (by decide) (by decide)⟩
